import Mathlib

set_option autoImplicit false

/-!
A verification development for the tinyraytracer sources
(src/geometry.rs and src/main.rs).  The f32 arithmetic of the source is
idealized as real-number arithmetic; fallible intersection routines are
embedded as Option-returning functions.
-/

namespace TinyRay

/-- Vec3f from geometry.rs: a 3-component vector used both as point and
direction. -/
structure Vec3 where
  x : ℝ
  y : ℝ
  z : ℝ

attribute [ext] Vec3

/-- impl Add for Vec3f: componentwise addition. -/
noncomputable instance : Add Vec3 :=
  ⟨fun a b => ⟨a.x + b.x, a.y + b.y, a.z + b.z⟩⟩

/-- impl Sub for Vec3f: componentwise subtraction. -/
noncomputable instance : Sub Vec3 :=
  ⟨fun a b => ⟨a.x - b.x, a.y - b.y, a.z - b.z⟩⟩

/-- impl Mul<f32> for Vec3f: uniform scaling. -/
noncomputable instance : HMul Vec3 ℝ Vec3 :=
  ⟨fun v c => ⟨v.x * c, v.y * c, v.z * c⟩⟩

/-- impl Neg for Vec3f: `self * -1f32`. -/
noncomputable instance : Neg Vec3 := ⟨fun v => v * (-1 : ℝ)⟩

@[simp] theorem Vec3.add_x (a b : Vec3) : (a + b).x = a.x + b.x := rfl
@[simp] theorem Vec3.add_y (a b : Vec3) : (a + b).y = a.y + b.y := rfl
@[simp] theorem Vec3.add_z (a b : Vec3) : (a + b).z = a.z + b.z := rfl
@[simp] theorem Vec3.sub_x (a b : Vec3) : (a - b).x = a.x - b.x := rfl
@[simp] theorem Vec3.sub_y (a b : Vec3) : (a - b).y = a.y - b.y := rfl
@[simp] theorem Vec3.sub_z (a b : Vec3) : (a - b).z = a.z - b.z := rfl
@[simp] theorem Vec3.smul_x (v : Vec3) (c : ℝ) : (v * c).x = v.x * c := rfl
@[simp] theorem Vec3.smul_y (v : Vec3) (c : ℝ) : (v * c).y = v.y * c := rfl
@[simp] theorem Vec3.smul_z (v : Vec3) (c : ℝ) : (v * c).z = v.z * c := rfl
@[simp] theorem Vec3.neg_x (v : Vec3) : (-v).x = v.x * -1 := rfl
@[simp] theorem Vec3.neg_y (v : Vec3) : (-v).y = v.y * -1 := rfl
@[simp] theorem Vec3.neg_z (v : Vec3) : (-v).z = v.z * -1 := rfl

/-- impl Mul for Vec3f: the dot product
`self.0.iter().zip(other.0.iter()).map(|(l, r)| l * r).sum()`. -/
noncomputable def Vec3.dot (a b : Vec3) : ℝ :=
  a.x * b.x + a.y * b.y + a.z * b.z

/-- Vec3f::norm: Euclidean length. -/
noncomputable def Vec3.norm (v : Vec3) : ℝ :=
  Real.sqrt (v.x * v.x + v.y * v.y + v.z * v.z)

/-- Vec3f::normalize: `self * (1f32 / self.norm())`. -/
noncomputable def Vec3.normalize (v : Vec3) : Vec3 :=
  v * (1 / v.norm)

/-- Vec3f::reflect: `self - p * 2f32 * (self * p)`. -/
noncomputable def Vec3.reflect (d p : Vec3) : Vec3 :=
  d - p * (2 : ℝ) * (Vec3.dot d p)

/-- The initial `cosi` of Vec3f::refract: `-(self * p).min(1f32).max(-1f32)`,
the negated cosine of incidence clamped to [-1, 1]. -/
noncomputable def clampedCosI (d p : Vec3) : ℝ :=
  -(max (min (Vec3.dot d p) 1) (-1))

/-- Vec3f::refract (Snell refraction).  The mutation sequence of the source
(clamping of the cosine, conditional flip of normal and swap of the two
refractive indices) is written out with lets, one per mutated local. -/
noncomputable def Vec3.refract (d p : Vec3) (etat : ℝ) : Vec3 :=
  let cosi0 := clampedCosI d p
  let cosi := if cosi0 < 0 then -cosi0 else cosi0
  let etai := if cosi0 < 0 then etat else 1
  let etat1 := if cosi0 < 0 then 1 else etat
  let n := if cosi0 < 0 then -p else p
  let eta := etai / etat1
  let k := 1 - eta * eta * (1 - cosi * cosi)
  if k < 0 then Vec3.mk 0 0 0 else d * eta + n * (eta * cosi - Real.sqrt k)

/-- One channel of Vec3f::as_bytes: `(b.min(1f32).max(0f32) * 255f32) as u8`.
The cast truncates toward zero; the operand is already in [0, 255], so this
is the floor. -/
noncomputable def quantChannel (b : ℝ) : ℕ :=
  (Int.floor (max (min b 1) 0 * 255)).toNat

/-- Vec3f::as_bytes: the three quantized channels in order. -/
noncomputable def Vec3.asBytes (v : Vec3) : List ℕ :=
  [quantChannel v.x, quantChannel v.y, quantChannel v.z]

/-- Light from main.rs. -/
structure Light where
  position : Vec3
  intensity : ℝ

/-- Material from main.rs. -/
structure Material where
  albedo : Vec3
  diffuse_color : Vec3
  specular_exponent : ℝ

/-- Material::default(): all fields zero. -/
def defaultMaterial : Material :=
  ⟨⟨0, 0, 0⟩, ⟨0, 0, 0⟩, 0⟩

/-- Sphere from main.rs. -/
structure Sphere where
  center : Vec3
  radius : ℝ
  material : Material

/-- The local `tca` of Sphere::ray_intersect: `vcp * direction` where
`vcp = self.center - p`. -/
noncomputable def tcaOf (s : Sphere) (p direction : Vec3) : ℝ :=
  Vec3.dot (s.center - p) direction

/-- The local `d2` of Sphere::ray_intersect: `vcp * vcp - tca * tca`. -/
noncomputable def d2Of (s : Sphere) (p direction : Vec3) : ℝ :=
  Vec3.dot (s.center - p) (s.center - p) - tcaOf s p direction * tcaOf s p direction

/-- The local `thc` of Sphere::ray_intersect:
`(self.radius * self.radius - d2).sqrt()`. -/
noncomputable def thcOf (s : Sphere) (p direction : Vec3) : ℝ :=
  Real.sqrt (s.radius * s.radius - d2Of s p direction)

/-- Sphere::ray_intersect.  The source reports a bool and writes the hit
distance through `&mut t0`; whenever it returns false the caller never reads
the written value (the `&&` short-circuits), so the pair is embedded as an
Option over the distance.  The locals vcp, tca, d2, thc of the source are
the named helpers above. -/
noncomputable def Sphere.rayIntersect (s : Sphere) (p direction : Vec3) : Option ℝ :=
  if d2Of s p direction > s.radius * s.radius then none
  else
    let t0 := tcaOf s p direction - thcOf s p direction
    let t1 := tcaOf s p direction + thcOf s p direction
    let t2 := if t0 < 0 then t1 else t0
    if t2 < 0 then none else some t2

/-- std::f32::MAX, the initial value of `spheres_dist`. -/
noncomputable def FLT_MAX : ℝ := 2 ^ 128 - 2 ^ 104

/-- The Image of main.rs.  The framebuffer (a flat row-major store of
width × height cells) is modelled functionally: `renderFrame` below returns
its contents after the pixel loop. -/
structure Image where
  width : ℕ
  height : ℕ
  fov : ℝ
  spheres : List Sphere
  lights : List Light

/-- The record built by the loop body of Image::scene_intersect for a hit of
sphere `s` at distance `t`: (spheres_dist, hit, n, material). -/
noncomputable def hitRecord (orig dir : Vec3) (s : Sphere) (t : ℝ) :
    ℝ × Vec3 × Vec3 × Material :=
  (t, orig + dir * t, Vec3.normalize ((orig + dir * t) - s.center), s.material)

/-- One iteration of the sphere loop of Image::scene_intersect:
`if sphere.ray_intersect(orig, direction, &mut dist_i) && dist_i < spheres_dist`. -/
noncomputable def sceneStep (orig dir : Vec3) (st : ℝ × Vec3 × Vec3 × Material)
    (s : Sphere) : ℝ × Vec3 × Vec3 × Material :=
  match s.rayIntersect orig dir with
  | some t => if t < st.1 then hitRecord orig dir s t else st
  | none => st

/-- The initial loop state of Image::scene_intersect:
(std::f32::MAX, Vec3f::default(), Vec3f::default(), Material::default()). -/
noncomputable def sceneInit : ℝ × Vec3 × Vec3 × Material :=
  (FLT_MAX, Vec3.mk 0 0 0, Vec3.mk 0 0 0, defaultMaterial)

/-- Image::scene_intersect. -/
noncomputable def sceneIntersect (img : Image) (orig dir : Vec3) :
    Option (Vec3 × Vec3 × Material) :=
  let st := img.spheres.foldl (sceneStep orig dir) sceneInit
  if st.1 < 1000 then some st.2 else none

/-- `depth.map(|d| d + 1).filter(|d| *d <= 4)`: the depth passed to the
recursive cast_ray call. -/
def nextDepth (depth : Option ℕ) : Option ℕ :=
  (depth.map (fun d => d + 1)).filter (fun d => d ≤ 4)

/-- Termination measure for cast_ray: an exhausted marker has no budget, an
active depth d has 5 - d + 1 recursive steps left at most. -/
def depthFuel : Option ℕ → ℕ
  | none => 0
  | some d => 5 - d + 1

/-- The bias applied to a secondary-ray origin, as written inline twice in
Image::cast_ray: offset the point along -n when the secondary direction is
in the back half-space of n, else along +n. -/
noncomputable def biasOrig (point n d : Vec3) : Vec3 :=
  if Vec3.dot d n < 0 then point - n * (1 / 1000 : ℝ) else point + n * (1 / 1000 : ℝ)

/-- One iteration of the per-light loop of Image::cast_ray, accumulating the
(diffuse, specular) intensities; an occluded light leaves the accumulator
unchanged (the `continue`). -/
noncomputable def lightStep (img : Image) (point n dir : Vec3) (material : Material)
    (acc : ℝ × ℝ) (light : Light) : ℝ × ℝ :=
  let lightDir := Vec3.normalize (light.position - point)
  let lightDistance := Vec3.norm (light.position - point)
  let shadowOrig := biasOrig point n lightDir
  let contrib : ℝ × ℝ :=
    (acc.1 + light.intensity * max 0 (Vec3.dot lightDir n),
     acc.2 + Real.rpow (max 0 (Vec3.dot (-(Vec3.reflect (-lightDir) n)) dir))
         material.specular_exponent * light.intensity)
  match sceneIntersect img shadowOrig lightDir with
  | some res =>
      if Vec3.norm (res.1 - shadowOrig) < lightDistance then acc else contrib
  | none => contrib

/-- The background color (0.2, 0.7, 0.8) of Image::cast_ray. -/
noncomputable def backgroundColor : Vec3 := Vec3.mk 0.2 0.7 0.8

theorem nextDepth_some (d : ℕ) :
    nextDepth (some d) = if d + 1 ≤ 4 then some (d + 1) else none := by
  simp only [nextDepth, Option.map_some, Option.filter]
  by_cases h : d + 1 ≤ 4 <;> simp [h]

theorem nextDepth_none : nextDepth none = none := rfl

/-- Image::cast_ray.  `depth.and_then(|_| self.scene_intersect(orig, dir))`
is unfolded into the two nested matches: an exhausted depth short-circuits
to the background without querying the scene. -/
noncomputable def castRay (img : Image) (orig dir : Vec3) : Option ℕ → Vec3
  | none => backgroundColor
  | some d =>
    match sceneIntersect img orig dir with
    | none => backgroundColor
    | some res =>
      let point := res.1
      let n := res.2.1
      let material := res.2.2
      let reflectDir := Vec3.normalize (Vec3.reflect dir n)
      let reflectOrig := biasOrig point n reflectDir
      let reflectColor := castRay img reflectOrig reflectDir (nextDepth (some d))
      let acc := img.lights.foldl (lightStep img point n dir material) (0, 0)
      material.diffuse_color * acc.1 * material.albedo.x +
        Vec3.mk 1 1 1 * acc.2 * material.albedo.y +
        reflectColor * material.albedo.z
termination_by depth => depthFuel depth
decreasing_by
  rw [nextDepth_some]
  by_cases h : d + 1 ≤ 4
  · simp only [h, if_true, depthFuel]
    omega
  · simp only [h, if_false, depthFuel]
    omega

/-- A fuel-indexed variant of cast_ray used to state that the recursion of
the source terminates within a constant budget: at fuel 0 it gives up with
the background color, otherwise it runs one unfolding of the body. -/
noncomputable def castRayFuel : ℕ → Image → Vec3 → Vec3 → Option ℕ → Vec3
  | 0, _, _, _, _ => backgroundColor
  | _ + 1, _, _, _, none => backgroundColor
  | fuel + 1, img, orig, dir, some d =>
    match sceneIntersect img orig dir with
    | none => backgroundColor
    | some res =>
      let point := res.1
      let n := res.2.1
      let material := res.2.2
      let reflectDir := Vec3.normalize (Vec3.reflect dir n)
      let reflectOrig := biasOrig point n reflectDir
      let reflectColor := castRayFuel fuel img reflectOrig reflectDir (nextDepth (some d))
      let acc := img.lights.foldl (lightStep img point n dir material) (0, 0)
      material.diffuse_color * acc.1 * material.albedo.x +
        Vec3.mk 1 1 1 * acc.2 * material.albedo.y +
        reflectColor * material.albedo.z

/-- The per-pixel camera ray and trace of Image::render. -/
noncomputable def renderPixel (img : Image) (i j : ℕ) : Vec3 :=
  let w : ℝ := img.width
  let h : ℝ := img.height
  let dirx : ℝ := ((j : ℝ) + 0.5) - w / 2
  let diry : ℝ := -((i : ℝ) + 0.5) + h / 2
  let dirz : ℝ := -h / (2 * Real.tan (img.fov / 2))
  castRay img (Vec3.mk 0 0 0) (Vec3.normalize (Vec3.mk dirx diry dirz)) (some 0)

/-- The framebuffer contents after the double pixel loop of Image::render,
row-major: cell i * width + j holds the trace of pixel (i, j). -/
noncomputable def renderFrame (img : Image) : List Vec3 :=
  ((List.range img.height).map
    (fun i => (List.range img.width).map (fun j => renderPixel img i j))).flatten

/-- The tone-mapping pass of Image::render: rescale a pixel by 1/max channel
when the maximum channel exceeds 1. -/
noncomputable def toneMap (p : Vec3) : Vec3 :=
  let m := max p.x (max p.y p.z)
  if m > 1 then p * (1 / m) else p

/-! ## Concrete sample data, used by the evaluation corollaries -/

/-- A sphere of radius 1 centered at (0, 0, -5) (the geometry of the
end-to-end scenario of the spec, shrunk to radius 1). -/
noncomputable def wSphere : Sphere := ⟨⟨0, 0, -5⟩, 1, defaultMaterial⟩

/-- The coordinate origin. -/
noncomputable def wOrig : Vec3 := ⟨0, 0, 0⟩

/-- The unit direction down the negative z axis. -/
noncomputable def wDir : Vec3 := ⟨0, 0, -1⟩

/-- A sphere of radius 1 centered at (0, 0, 2), sitting between the origin
and a light at (0, 0, 4). -/
noncomputable def wBlocker : Sphere := ⟨⟨0, 0, 2⟩, 1, defaultMaterial⟩

/-- A light at (0, 0, 4) with intensity 1. -/
noncomputable def wLight : Light := ⟨⟨0, 0, 4⟩, 1⟩

/-- A small scene holding only wSphere. -/
noncomputable def wImg : Image := ⟨4, 3, Real.pi / 2, [wSphere], []⟩

/-- A small scene holding only wBlocker and wLight. -/
noncomputable def wImgShadow : Image := ⟨4, 3, Real.pi / 2, [wBlocker], [wLight]⟩

/-- A scene with no spheres at all. -/
noncomputable def wImgEmpty : Image := ⟨2, 2, Real.pi / 2, [], []⟩

/-! ## Helper lemmas -/

theorem sqrtEval {x y : ℝ} (hx : x = y * y) (hy : 0 ≤ y) : Real.sqrt x = y :=
  Real.sqrt_eq_cases.mpr (Or.inl ⟨hx.symm, hy⟩)

theorem floorToNatEval {x : ℝ} (n : ℕ) (h1 : (n : ℝ) ≤ x) (h2 : x < n + 1) :
    (Int.floor x).toNat = n := by
  have hf : Int.floor x = (n : ℤ) := by
    rw [Int.floor_eq_iff]
    constructor
    · exact_mod_cast h1
    · push_cast
      exact h2
  rw [hf]
  simp

/-! ## Claim theorems -/

/-- C1: for every scene, origin and direction, cast_ray at the exhausted
depth marker (depth = None) returns exactly the background color
(0.2, 0.7, 0.8) — the scene query is never consulted, even when a sphere
lies in front of the ray, since the image is arbitrary here — and the
recursive call of an active depth d receives the exhausted marker exactly
when d + 1 would exceed 4. -/
theorem castRay_exhausted_background (img : Image) (orig dir : Vec3) :
    castRay img orig dir none = Vec3.mk 0.2 0.7 0.8 ∧
    ∀ d : ℕ, (nextDepth (some d) = none ↔ 4 < d + 1) := by
  constructor
  · simp [castRay, backgroundColor]
  · intro d
    rw [nextDepth_some]
    by_cases h : d + 1 ≤ 4
    · simp only [h, if_true]
      constructor
      · intro hc
        exact absurd hc (by simp)
      · omega
    · simp only [h, if_false]
      constructor
      · intro _
        omega
      · intro _
        trivial

/-- C9: cast_ray is a pure, deterministic function of its arguments and the
read-only scene: equal scenes and equal arguments give equal colors (the
embedding is a function of the Image value, which holds the spheres and
lights; no state is threaded, so nothing is mutated). -/
theorem castRay_deterministic (img1 img2 : Image) (o1 o2 d1 d2 : Vec3)
    (dep1 dep2 : Option ℕ) (himg : img1 = img2) (ho : o1 = o2) (hd : d1 = d2)
    (hdep : dep1 = dep2) :
    castRay img1 o1 d1 dep1 = castRay img2 o2 d2 dep2 := by
  subst himg ho hd hdep
  rfl

theorem castRay_deterministic_witness :
    castRay ⟨1, 1, Real.pi / 2, [], []⟩ (Vec3.mk 0 0 0) (Vec3.mk 0 0 (-1)) none =
      castRay ⟨1, 1, Real.pi / 2, [], []⟩ (Vec3.mk 0 0 0) (Vec3.mk 0 0 (-1)) none :=
  castRay_deterministic _ _ _ _ _ _ _ _ rfl rfl rfl rfl

/-- C8: for every vector d and every unit vector n, the component of the
reflected vector along the normal is the negation of the incident
component: dot(reflect(d, n), n) = -dot(d, n). -/
theorem reflect_dot (d n : Vec3) (h : Vec3.norm n = 1) :
    Vec3.dot (Vec3.reflect d n) n = -(Vec3.dot d n) := by
  have hsq : n.x * n.x + n.y * n.y + n.z * n.z = 1 := by
    rw [Vec3.norm] at h
    rcases Real.sqrt_eq_cases.mp h with ⟨h1, _⟩ | ⟨_, h10⟩
    · linarith
    · norm_num at h10
  simp only [Vec3.reflect, Vec3.dot, Vec3.sub_x, Vec3.sub_y, Vec3.sub_z,
    Vec3.smul_x, Vec3.smul_y, Vec3.smul_z]
  linear_combination (-2 * (d.x * n.x + d.y * n.y + d.z * n.z)) * hsq

theorem reflect_dot_witness :
    Vec3.norm (Vec3.mk 0 0 1) = 1 ∧
    Vec3.dot (Vec3.reflect (Vec3.mk 1 2 3) (Vec3.mk 0 0 1)) (Vec3.mk 0 0 1) =
      -(Vec3.dot (Vec3.mk 1 2 3) (Vec3.mk 0 0 1)) := by
  have h : Vec3.norm (Vec3.mk 0 0 1) = 1 := by
    rw [Vec3.norm]
    exact sqrtEval (by norm_num) (by norm_num)
  exact ⟨h, reflect_dot _ _ h⟩

/-- C5: tone mapping rescales a pixel by 1/max(r, g, b) exactly when its
maximum channel exceeds 1 (and leaves it unchanged otherwise), and
quantization maps each channel through clamp(value, 0, 1) × 255 with
truncation; in particular (2.0, 0.5, 1.0) tone-maps to (1.0, 0.25, 0.5)
and quantizes to the byte triple (255, 63, 127). -/
theorem toneMap_quantize_spec :
    (∀ p : Vec3, 1 < max p.x (max p.y p.z) →
        toneMap p = p * (1 / max p.x (max p.y p.z))) ∧
    (∀ p : Vec3, ¬ 1 < max p.x (max p.y p.z) → toneMap p = p) ∧
    toneMap (Vec3.mk 2 0.5 1) = Vec3.mk 1 0.25 0.5 ∧
    Vec3.asBytes (Vec3.mk 1 0.25 0.5) = [255, 63, 127] := by
  have h1 : max (0.5 : ℝ) 1 = 1 := max_eq_right (by norm_num)
  have h2 : max (2 : ℝ) 1 = 2 := max_eq_left (by norm_num)
  refine ⟨?_, ?_, ?_, ?_⟩
  · intro p hp
    simp [toneMap, hp]
  · intro p hp
    simp [toneMap, hp]
  · have hstep : toneMap (Vec3.mk 2 0.5 1) =
        if max (2 : ℝ) (max 0.5 1) > 1
        then Vec3.mk 2 0.5 1 * (1 / max (2 : ℝ) (max 0.5 1))
        else Vec3.mk 2 0.5 1 := rfl
    rw [hstep, h1, h2, if_pos (by norm_num : (2:ℝ) > 1)]
    ext <;> simp <;> norm_num
  · have q1 : quantChannel 1 = 255 := by
      rw [quantChannel]
      rw [show max (min (1:ℝ) 1) 0 * 255 = 255 by norm_num]
      exact floorToNatEval 255 (by norm_num) (by norm_num)
    have q2 : quantChannel 0.25 = 63 := by
      rw [quantChannel]
      rw [show max (min (0.25:ℝ) 1) 0 * 255 = 63.75 by
        rw [min_eq_left (by norm_num), max_eq_left (by norm_num)]
        norm_num]
      exact floorToNatEval 63 (by norm_num) (by norm_num)
    have q3 : quantChannel 0.5 = 127 := by
      rw [quantChannel]
      rw [show max (min (0.5:ℝ) 1) 0 * 255 = 127.5 by
        rw [min_eq_left (by norm_num), max_eq_left (by norm_num)]
        norm_num]
      exact floorToNatEval 127 (by norm_num) (by norm_num)
    show [quantChannel 1, quantChannel 0.25, quantChannel 0.5] = [255, 63, 127]
    rw [q1, q2, q3]

theorem toneMap_quantize_spec_witness :
    1 < max (Vec3.mk 2 0.5 1).x (max (Vec3.mk 2 0.5 1).y (Vec3.mk 2 0.5 1).z) ∧
    toneMap (Vec3.mk 2 0.5 1) =
      Vec3.mk 2 0.5 1 *
        (1 / max (Vec3.mk 2 0.5 1).x
          (max (Vec3.mk 2 0.5 1).y (Vec3.mk 2 0.5 1).z)) := by
  have h : 1 < max (Vec3.mk 2 0.5 1).x
      (max (Vec3.mk 2 0.5 1).y (Vec3.mk 2 0.5 1).z) := by
    show (1:ℝ) < max 2 (max 0.5 1)
    rw [max_eq_right (by norm_num : (0.5:ℝ) ≤ 1), max_eq_left (by norm_num : (1:ℝ) ≤ 2)]
    norm_num
  exact ⟨h, toneMap_quantize_spec.1 _ h⟩

/-- C10: the (unused) refraction operator returns the exact zero vector
whenever total internal reflection occurs (k < 0), and otherwise returns
self × eta + n × (eta × cosi − sqrt k); when the clamped incidence cosine
is negative the normal is flipped and the two refractive indices are
swapped. -/
theorem refract_spec (d p : Vec3) (etat : ℝ) :
    (0 ≤ clampedCosI d p →
      (1 - 1 / etat * (1 / etat) * (1 - clampedCosI d p * clampedCosI d p) < 0 →
        Vec3.refract d p etat = Vec3.mk 0 0 0) ∧
      (0 ≤ 1 - 1 / etat * (1 / etat) * (1 - clampedCosI d p * clampedCosI d p) →
        Vec3.refract d p etat =
          d * (1 / etat) + p * (1 / etat * clampedCosI d p -
            Real.sqrt (1 - 1 / etat * (1 / etat) *
              (1 - clampedCosI d p * clampedCosI d p))))) ∧
    (clampedCosI d p < 0 →
      (1 - etat / 1 * (etat / 1) * (1 - -clampedCosI d p * -clampedCosI d p) < 0 →
        Vec3.refract d p etat = Vec3.mk 0 0 0) ∧
      (0 ≤ 1 - etat / 1 * (etat / 1) * (1 - -clampedCosI d p * -clampedCosI d p) →
        Vec3.refract d p etat =
          d * (etat / 1) + (-p) * (etat / 1 * -clampedCosI d p -
            Real.sqrt (1 - etat / 1 * (etat / 1) *
              (1 - -clampedCosI d p * -clampedCosI d p))))) := by
  constructor
  · intro h0
    have hlt : ¬ clampedCosI d p < 0 := not_lt.mpr h0
    constructor
    · intro hk
      rw [Vec3.refract]
      simp only [if_neg hlt]
      rw [if_pos hk]
    · intro hk
      rw [Vec3.refract]
      simp only [if_neg hlt]
      rw [if_neg (not_lt.mpr hk)]
  · intro h0
    constructor
    · intro hk
      rw [Vec3.refract]
      simp only [if_pos h0]
      rw [if_pos hk]
    · intro hk
      rw [Vec3.refract]
      simp only [if_pos h0]
      rw [if_neg (not_lt.mpr hk)]

theorem refract_spec_witness :
    0 ≤ clampedCosI (Vec3.mk (4/5) 0 (-(3/5))) (Vec3.mk 0 0 1) ∧
    1 - 1 / (1/2) * (1 / (1/2)) *
        (1 - clampedCosI (Vec3.mk (4/5) 0 (-(3/5))) (Vec3.mk 0 0 1) *
          clampedCosI (Vec3.mk (4/5) 0 (-(3/5))) (Vec3.mk 0 0 1)) < 0 ∧
    Vec3.refract (Vec3.mk (4/5) 0 (-(3/5))) (Vec3.mk 0 0 1) (1/2) = Vec3.mk 0 0 0 := by
  have hc : clampedCosI (Vec3.mk (4/5) 0 (-(3/5))) (Vec3.mk 0 0 1) = 3/5 := by
    rw [clampedCosI]
    rw [show Vec3.dot (Vec3.mk (4/5) 0 (-(3/5))) (Vec3.mk 0 0 1) = -(3/5) by
      rw [Vec3.dot]
      norm_num]
    rw [min_eq_left (by norm_num), max_eq_left (by norm_num)]
    norm_num
  refine ⟨by rw [hc]; norm_num, by rw [hc]; norm_num, ?_⟩
  exact ((refract_spec _ _ _).1 (by rw [hc]; norm_num)).1 (by rw [hc]; norm_num)

/-- C3: ray_intersect reports no hit exactly when the squared perpendicular
distance d2 exceeds radius² or both roots tca ∓ thc are negative; otherwise
the reported distance is the nearest non-negative root — tca − thc when that
is non-negative, else tca + thc — and hence is always ≥ 0. -/
theorem rayIntersect_spec (s : Sphere) (orig dir : Vec3) :
    (s.rayIntersect orig dir = none ↔
      d2Of s orig dir > s.radius * s.radius ∨
        (tcaOf s orig dir - thcOf s orig dir < 0 ∧
          tcaOf s orig dir + thcOf s orig dir < 0)) ∧
    ∀ t : ℝ, s.rayIntersect orig dir = some t →
      (t = if 0 ≤ tcaOf s orig dir - thcOf s orig dir
        then tcaOf s orig dir - thcOf s orig dir
        else tcaOf s orig dir + thcOf s orig dir) ∧ 0 ≤ t := by
  constructor
  · simp only [Sphere.rayIntersect]
    split_ifs with h1 h2 h3 <;> simp_all
  · intro t ht
    simp only [Sphere.rayIntersect] at ht
    by_cases h1 : d2Of s orig dir > s.radius * s.radius
    · rw [if_pos h1] at ht
      cases ht
    · rw [if_neg h1] at ht
      by_cases h2 : tcaOf s orig dir - thcOf s orig dir < 0
      · rw [if_pos h2] at ht
        by_cases h3 : tcaOf s orig dir + thcOf s orig dir < 0
        · rw [if_pos h3] at ht
          cases ht
        · rw [if_neg h3] at ht
          have ht2 := Option.some.inj ht
          exact ⟨by rw [if_neg (not_le.mpr h2)]; exact ht2.symm, ht2 ▸ not_lt.mp h3⟩
      · rw [if_neg h2, if_neg h2] at ht
        have ht2 := Option.some.inj ht
        exact ⟨by rw [if_pos (not_lt.mp h2)]; exact ht2.symm, ht2 ▸ not_lt.mp h2⟩

theorem rayIntersect_spec_witness :
    wSphere.rayIntersect wOrig wDir = some 4 ∧
    ((4 : ℝ) = if 0 ≤ tcaOf wSphere wOrig wDir - thcOf wSphere wOrig wDir
      then tcaOf wSphere wOrig wDir - thcOf wSphere wOrig wDir
      else tcaOf wSphere wOrig wDir + thcOf wSphere wOrig wDir) ∧ (0:ℝ) ≤ 4 := by
  have htca : tcaOf wSphere wOrig wDir = 5 := by
    norm_num [tcaOf, Vec3.dot, wSphere, wOrig, wDir]
  have hd2 : d2Of wSphere wOrig wDir = 0 := by
    rw [d2Of, htca]
    norm_num [Vec3.dot, wSphere, wOrig]
  have hthc : thcOf wSphere wOrig wDir = 1 := by
    rw [thcOf, hd2]
    have hr : wSphere.radius * wSphere.radius - 0 = 1 * 1 := by
      norm_num [wSphere]
    rw [hr]
    exact sqrtEval rfl (by norm_num)
  have heval : wSphere.rayIntersect wOrig wDir = some 4 := by
    rw [Sphere.rayIntersect,
      if_neg (by rw [hd2]; norm_num [wSphere] : ¬ d2Of wSphere wOrig wDir > wSphere.radius * wSphere.radius)]
    simp only [htca, hthc]
    norm_num
  exact ⟨heval, (rayIntersect_spec wSphere wOrig wDir).2 4 heval⟩

/-! ## The scene-scan characterization (claim C2) -/

theorem sceneStep_of_none {orig dir : Vec3} {st : ℝ × Vec3 × Vec3 × Material}
    {s : Sphere} (h : s.rayIntersect orig dir = none) :
    sceneStep orig dir st s = st := by
  rw [sceneStep, h]

theorem sceneStep_of_ge {orig dir : Vec3} {st : ℝ × Vec3 × Vec3 × Material}
    {s : Sphere} {t : ℝ} (h : s.rayIntersect orig dir = some t)
    (hge : ¬ t < st.1) : sceneStep orig dir st s = st := by
  rw [sceneStep, h]
  exact if_neg hge

theorem sceneStep_of_lt {orig dir : Vec3} {st : ℝ × Vec3 × Vec3 × Material}
    {s : Sphere} {t : ℝ} (h : s.rayIntersect orig dir = some t)
    (hlt : t < st.1) : sceneStep orig dir st s = hitRecord orig dir s t := by
  rw [sceneStep, h]
  exact if_pos hlt

/-- Full characterization of the sphere scan: from any start state it either
leaves the state alone (and then no sphere hits below the running minimum),
or it ends in the record of the earliest sphere achieving the strict minimum
hit distance: all earlier spheres hit strictly farther (strictly-less
comparison), all later ones no closer. -/
theorem foldl_sceneStep_spec (orig dir : Vec3) (l : List Sphere) :
    ∀ st : ℝ × Vec3 × Vec3 × Material,
      (l.foldl (sceneStep orig dir) st = st ∧
        ∀ s ∈ l, ∀ t : ℝ, s.rayIntersect orig dir = some t → st.1 ≤ t) ∨
      (∃ i : ℕ, ∃ hi : i < l.length, ∃ t : ℝ,
        (l.get ⟨i, hi⟩).rayIntersect orig dir = some t ∧
        l.foldl (sceneStep orig dir) st = hitRecord orig dir (l.get ⟨i, hi⟩) t ∧
        t < st.1 ∧
        (∀ j : ℕ, j < i → ∀ hj : j < l.length, ∀ u : ℝ,
          (l.get ⟨j, hj⟩).rayIntersect orig dir = some u → t < u) ∧
        (∀ j : ℕ, i < j → ∀ hj : j < l.length, ∀ u : ℝ,
          (l.get ⟨j, hj⟩).rayIntersect orig dir = some u → t ≤ u)) := by
  induction l with
  | nil =>
    intro st
    exact Or.inl ⟨rfl, by simp⟩
  | cons s l ih =>
    intro st
    rw [List.foldl_cons]
    cases hray : s.rayIntersect orig dir with
    | none =>
      rw [sceneStep_of_none hray]
      rcases ih st with ⟨heq, hbound⟩ | ⟨i, hi, t, hrt, heq, hlt, hbef, haft⟩
      · refine Or.inl ⟨heq, ?_⟩
        intro s2 hs2 t hsome
        rcases List.mem_cons.mp hs2 with rfl | hmem
        · rw [hray] at hsome
          cases hsome
        · exact hbound s2 hmem t hsome
      · refine Or.inr ⟨i + 1, Nat.succ_lt_succ hi, t, hrt, heq, hlt, ?_, ?_⟩
        · intro j hj hjlen u hu
          cases j with
          | zero =>
            rw [show ((s :: l).get ⟨0, hjlen⟩) = s from rfl, hray] at hu
            cases hu
          | succ j2 =>
            exact hbef j2 (Nat.lt_of_succ_lt_succ hj) (Nat.lt_of_succ_lt_succ hjlen) u hu
        · intro j hj hjlen u hu
          cases j with
          | zero => exact absurd hj (Nat.not_lt_zero _)
          | succ j2 =>
            exact haft j2 (Nat.lt_of_succ_lt_succ hj) (Nat.lt_of_succ_lt_succ hjlen) u hu
    | some t0 =>
      by_cases hlt0 : t0 < st.1
      · rw [sceneStep_of_lt hray hlt0]
        rcases ih (hitRecord orig dir s t0) with ⟨heq, hbound⟩ |
          ⟨i, hi, t, hrt, heq, hlt, hbef, haft⟩
        · refine Or.inr ⟨0, Nat.succ_pos _, t0, hray, heq, hlt0, ?_, ?_⟩
          · intro j hj _ _ _
            exact absurd hj (Nat.not_lt_zero _)
          · intro j hj hjlen u hu
            cases j with
            | zero => exact absurd hj (lt_irrefl 0)
            | succ j2 =>
              exact hbound (l.get ⟨j2, Nat.lt_of_succ_lt_succ hjlen⟩)
                (List.get_mem _ _ _) u hu
        · refine Or.inr ⟨i + 1, Nat.succ_lt_succ hi, t, hrt, heq,
            lt_trans hlt hlt0, ?_, ?_⟩
          · intro j hj hjlen u hu
            cases j with
            | zero =>
              rw [show ((s :: l).get ⟨0, hjlen⟩) = s from rfl, hray] at hu
              have h2 : t0 = u := Option.some.inj hu
              exact h2 ▸ hlt
            | succ j2 =>
              exact hbef j2 (Nat.lt_of_succ_lt_succ hj) (Nat.lt_of_succ_lt_succ hjlen) u hu
          · intro j hj hjlen u hu
            cases j with
            | zero => exact absurd hj (Nat.not_lt_zero _)
            | succ j2 =>
              exact haft j2 (Nat.lt_of_succ_lt_succ hj) (Nat.lt_of_succ_lt_succ hjlen) u hu
      · rw [sceneStep_of_ge hray hlt0]
        rcases ih st with ⟨heq, hbound⟩ | ⟨i, hi, t, hrt, heq, hlt, hbef, haft⟩
        · refine Or.inl ⟨heq, ?_⟩
          intro s2 hs2 u hu
          rcases List.mem_cons.mp hs2 with rfl | hmem
          · rw [hray] at hu
            have h2 : t0 = u := Option.some.inj hu
            exact h2 ▸ not_lt.mp hlt0
          · exact hbound s2 hmem u hu
        · refine Or.inr ⟨i + 1, Nat.succ_lt_succ hi, t, hrt, heq, hlt, ?_, ?_⟩
          · intro j hj hjlen u hu
            cases j with
            | zero =>
              rw [show ((s :: l).get ⟨0, hjlen⟩) = s from rfl, hray] at hu
              have h2 : t0 = u := Option.some.inj hu
              exact h2 ▸ lt_of_lt_of_le hlt (not_lt.mp hlt0)
            | succ j2 =>
              exact hbef j2 (Nat.lt_of_succ_lt_succ hj) (Nat.lt_of_succ_lt_succ hjlen) u hu
          · intro j hj hjlen u hu
            cases j with
            | zero => exact absurd hj (Nat.not_lt_zero _)
            | succ j2 =>
              exact haft j2 (Nat.lt_of_succ_lt_succ hj) (Nat.lt_of_succ_lt_succ hjlen) u hu

theorem FLT_MAX_big : (1000 : ℝ) < FLT_MAX := by
  rw [FLT_MAX]
  norm_num

/-- C2: scene_intersect returns Some iff some sphere hits at distance
strictly below 1000 (equivalently: the minimum hit distance is below the
far plane); when it does, the returned triple is the hit point, normal and
material of a sphere achieving the minimum hit distance, and among the
spheres achieving it the earliest in insertion order wins (every strictly
earlier sphere hits strictly farther — the strictly-less comparison). -/
theorem sceneIntersect_nearest_spec (img : Image) (orig dir : Vec3) :
    ((sceneIntersect img orig dir).isSome ↔
      ∃ s ∈ img.spheres, ∃ t : ℝ, s.rayIntersect orig dir = some t ∧ t < 1000) ∧
    ∀ res : Vec3 × Vec3 × Material, sceneIntersect img orig dir = some res →
      ∃ i : ℕ, ∃ hi : i < img.spheres.length, ∃ t : ℝ,
        (img.spheres.get ⟨i, hi⟩).rayIntersect orig dir = some t ∧ t < 1000 ∧
        res = (orig + dir * t,
          Vec3.normalize ((orig + dir * t) - (img.spheres.get ⟨i, hi⟩).center),
          (img.spheres.get ⟨i, hi⟩).material) ∧
        (∀ j : ℕ, ∀ hj : j < img.spheres.length, ∀ u : ℝ,
          (img.spheres.get ⟨j, hj⟩).rayIntersect orig dir = some u → t ≤ u) ∧
        (∀ j : ℕ, j < i → ∀ hj : j < img.spheres.length, ∀ u : ℝ,
          (img.spheres.get ⟨j, hj⟩).rayIntersect orig dir = some u → t < u) := by
  have hfltn : ¬ sceneInit.1 < 1000 := not_lt.mpr FLT_MAX_big.le
  rcases foldl_sceneStep_spec orig dir img.spheres sceneInit with
    ⟨heq, hbound⟩ | ⟨i, hi, t, hrt, heq, hlt, hbef, haft⟩
  · have hnone : sceneIntersect img orig dir = none := by
      simp only [sceneIntersect]
      rw [heq]
      exact if_neg hfltn
    constructor
    · rw [hnone]
      simp only [Option.isSome_none, Bool.false_eq_true, false_iff]
      rintro ⟨s, hmem, u, hu, hu1000⟩
      have h2 : FLT_MAX ≤ u := hbound s hmem u hu
      exact absurd hu1000 (not_lt.mpr (le_trans FLT_MAX_big.le h2))
    · intro res hres
      rw [hnone] at hres
      cases hres
  · have hmin : ∀ j : ℕ, ∀ hj : j < img.spheres.length, ∀ u : ℝ,
        (img.spheres.get ⟨j, hj⟩).rayIntersect orig dir = some u → t ≤ u := by
      intro j hj u hu
      rcases lt_trichotomy j i with h | h | h
      · exact (hbef j h hj u hu).le
      · subst h
        rw [hrt] at hu
        exact le_of_eq (Option.some.inj hu)
      · exact haft j h hj u hu
    by_cases h1000 : t < 1000
    · have hres : sceneIntersect img orig dir =
          some (orig + dir * t,
            Vec3.normalize ((orig + dir * t) - (img.spheres.get ⟨i, hi⟩).center),
            (img.spheres.get ⟨i, hi⟩).material) := by
        simp only [sceneIntersect]
        rw [heq]
        exact if_pos h1000
      constructor
      · rw [hres]
        simp only [Option.isSome_some, true_iff]
        exact ⟨img.spheres.get ⟨i, hi⟩, List.get_mem _ _ _, t, hrt, h1000⟩
      · intro res hres2
        rw [hres] at hres2
        exact ⟨i, hi, t, hrt, h1000, (Option.some.inj hres2).symm, hmin, hbef⟩
    · have hnone : sceneIntersect img orig dir = none := by
        simp only [sceneIntersect]
        rw [heq]
        exact if_neg h1000
      constructor
      · rw [hnone]
        simp only [Option.isSome_none, Bool.false_eq_true, false_iff]
        rintro ⟨s, hmem, u, hu, hu1000⟩
        obtain ⟨n, hn⟩ := List.mem_iff_get.mp hmem
        subst hn
        have htu : t ≤ u := hmin n.1 n.2 u hu
        exact absurd hu1000 (not_lt.mpr (le_trans (not_lt.mp h1000) htu))
      · intro res hres
        rw [hnone] at hres
        cases hres

theorem wSphere_ray_eval : wSphere.rayIntersect wOrig wDir = some 4 := by
  have htca : tcaOf wSphere wOrig wDir = 5 := by
    norm_num [tcaOf, Vec3.dot, wSphere, wOrig, wDir]
  have hd2 : d2Of wSphere wOrig wDir = 0 := by
    rw [d2Of, htca]
    norm_num [Vec3.dot, wSphere, wOrig]
  have hthc : thcOf wSphere wOrig wDir = 1 := by
    rw [thcOf, hd2]
    have hr : wSphere.radius * wSphere.radius - 0 = 1 * 1 := by
      norm_num [wSphere]
    rw [hr]
    exact sqrtEval rfl (by norm_num)
  rw [Sphere.rayIntersect,
    if_neg (by rw [hd2]; norm_num [wSphere] :
      ¬ d2Of wSphere wOrig wDir > wSphere.radius * wSphere.radius)]
  simp only [htca, hthc]
  norm_num

theorem sceneIntersect_wImg_eval :
    sceneIntersect wImg wOrig wDir =
      some (Vec3.mk 0 0 (-4), Vec3.mk 0 0 1, defaultMaterial) := by
  have hfold : wImg.spheres.foldl (sceneStep wOrig wDir) sceneInit =
      hitRecord wOrig wDir wSphere 4 := by
    show List.foldl (sceneStep wOrig wDir) sceneInit [wSphere] = _
    rw [List.foldl_cons, List.foldl_nil,
      sceneStep_of_lt wSphere_ray_eval
        (by rw [show sceneInit.1 = FLT_MAX from rfl, FLT_MAX]; norm_num)]
  simp only [sceneIntersect]
  rw [hfold,
    if_pos (by norm_num [hitRecord] : (hitRecord wOrig wDir wSphere 4).1 < 1000)]
  have hhit : wOrig + wDir * (4 : ℝ) = Vec3.mk 0 0 (-4) := by
    ext <;> norm_num [wOrig, wDir]
  have hdiff : (Vec3.mk 0 0 (-4) : Vec3) - wSphere.center = Vec3.mk 0 0 1 := by
    ext <;> norm_num [wSphere]
  have hn1 : Vec3.norm (Vec3.mk 0 0 1) = 1 := by
    rw [Vec3.norm]
    exact sqrtEval (by norm_num) (by norm_num)
  have hnorm : Vec3.normalize ((Vec3.mk 0 0 (-4) : Vec3) - wSphere.center) =
      Vec3.mk 0 0 1 := by
    rw [hdiff, Vec3.normalize, hn1]
    ext <;> norm_num
  show some (wOrig + wDir * (4 : ℝ),
      Vec3.normalize ((wOrig + wDir * (4 : ℝ)) - wSphere.center),
      wSphere.material) = _
  rw [hhit, hnorm]
  rfl

theorem sceneIntersect_nearest_spec_witness :
    (sceneIntersect wImg wOrig wDir).isSome ∧
    (∃ i : ℕ, ∃ hi : i < wImg.spheres.length, ∃ t : ℝ,
      (wImg.spheres.get ⟨i, hi⟩).rayIntersect wOrig wDir = some t ∧ t < 1000 ∧
      ((Vec3.mk 0 0 (-4), Vec3.mk 0 0 1, defaultMaterial) : Vec3 × Vec3 × Material) =
        (wOrig + wDir * t,
          Vec3.normalize ((wOrig + wDir * t) - (wImg.spheres.get ⟨i, hi⟩).center),
          (wImg.spheres.get ⟨i, hi⟩).material) ∧
      (∀ j : ℕ, ∀ hj : j < wImg.spheres.length, ∀ u : ℝ,
        (wImg.spheres.get ⟨j, hj⟩).rayIntersect wOrig wDir = some u → t ≤ u) ∧
      (∀ j : ℕ, j < i → ∀ hj : j < wImg.spheres.length, ∀ u : ℝ,
        (wImg.spheres.get ⟨j, hj⟩).rayIntersect wOrig wDir = some u → t < u)) :=
  ⟨(sceneIntersect_nearest_spec wImg wOrig wDir).1.mpr
      ⟨wSphere, by simp [wImg], 4, wSphere_ray_eval, by norm_num⟩,
    (sceneIntersect_nearest_spec wImg wOrig wDir).2 _ sceneIntersect_wImg_eval⟩

/-! ## Shadowing (claim C6) -/

/-- C6: in the per-light loop of cast_ray, a light whose shadow ray (cast
from the biased origin toward the light) hits some sphere at a distance to
the biased origin smaller than the distance to the light contributes
exactly zero to both accumulators: deleting it from the light list leaves
the loop result unchanged, for any surrounding lights pre and post. -/
theorem occluded_light_no_contribution (img : Image) (point n dir : Vec3)
    (material : Material) (pre post : List Light) (light : Light) (acc : ℝ × ℝ)
    (res : Vec3 × Vec3 × Material)
    (hhit : sceneIntersect img
        (biasOrig point n (Vec3.normalize (light.position - point)))
        (Vec3.normalize (light.position - point)) = some res)
    (hdist : Vec3.norm (res.1 -
        biasOrig point n (Vec3.normalize (light.position - point))) <
      Vec3.norm (light.position - point)) :
    (pre ++ light :: post).foldl (lightStep img point n dir material) acc =
      (pre ++ post).foldl (lightStep img point n dir material) acc := by
  have hstep : ∀ acc2 : ℝ × ℝ, lightStep img point n dir material acc2 light = acc2 := by
    intro acc2
    simp only [lightStep, hhit]
    rw [if_pos hdist]
  rw [List.foldl_append, List.foldl_append, List.foldl_cons, hstep]

theorem wBlocker_ray_eval :
    wBlocker.rayIntersect (Vec3.mk 0 0 (1/1000)) (Vec3.mk 0 0 1) =
      some (999/1000) := by
  have htca : tcaOf wBlocker (Vec3.mk 0 0 (1/1000)) (Vec3.mk 0 0 1) = 1999/1000 := by
    norm_num [tcaOf, Vec3.dot, wBlocker]
  have hd2 : d2Of wBlocker (Vec3.mk 0 0 (1/1000)) (Vec3.mk 0 0 1) = 0 := by
    rw [d2Of, htca]
    norm_num [Vec3.dot, wBlocker]
  have hthc : thcOf wBlocker (Vec3.mk 0 0 (1/1000)) (Vec3.mk 0 0 1) = 1 := by
    rw [thcOf, hd2]
    have hr : wBlocker.radius * wBlocker.radius - 0 = 1 * 1 := by
      norm_num [wBlocker]
    rw [hr]
    exact sqrtEval rfl (by norm_num)
  rw [Sphere.rayIntersect,
    if_neg (by rw [hd2]; norm_num [wBlocker] :
      ¬ d2Of wBlocker (Vec3.mk 0 0 (1/1000)) (Vec3.mk 0 0 1) >
        wBlocker.radius * wBlocker.radius)]
  simp only [htca, hthc]
  norm_num

theorem sceneIntersect_shadow_eval :
    sceneIntersect wImgShadow (Vec3.mk 0 0 (1/1000)) (Vec3.mk 0 0 1) =
      some (Vec3.mk 0 0 1, Vec3.mk 0 0 (-1), defaultMaterial) := by
  have hfold : wImgShadow.spheres.foldl
      (sceneStep (Vec3.mk 0 0 (1/1000)) (Vec3.mk 0 0 1)) sceneInit =
      hitRecord (Vec3.mk 0 0 (1/1000)) (Vec3.mk 0 0 1) wBlocker (999/1000) := by
    show List.foldl (sceneStep (Vec3.mk 0 0 (1/1000)) (Vec3.mk 0 0 1)) sceneInit
      [wBlocker] = _
    rw [List.foldl_cons, List.foldl_nil,
      sceneStep_of_lt wBlocker_ray_eval
        (by rw [show sceneInit.1 = FLT_MAX from rfl, FLT_MAX]; norm_num)]
  simp only [sceneIntersect]
  rw [hfold,
    if_pos (by norm_num [hitRecord] :
      (hitRecord (Vec3.mk 0 0 (1/1000)) (Vec3.mk 0 0 1) wBlocker (999/1000)).1 < 1000)]
  have hhit : (Vec3.mk 0 0 (1/1000) : Vec3) + Vec3.mk 0 0 1 * ((999:ℝ)/1000) =
      Vec3.mk 0 0 1 := by
    ext <;> norm_num
  have hdiff : (Vec3.mk 0 0 1 : Vec3) - wBlocker.center = Vec3.mk 0 0 (-1) := by
    ext <;> norm_num [wBlocker]
  have hn1 : Vec3.norm (Vec3.mk 0 0 (-1)) = 1 := by
    rw [Vec3.norm]
    exact sqrtEval (by norm_num) (by norm_num)
  have hnorm : Vec3.normalize ((Vec3.mk 0 0 1 : Vec3) - wBlocker.center) =
      Vec3.mk 0 0 (-1) := by
    rw [hdiff, Vec3.normalize, hn1]
    ext <;> norm_num
  show some (Vec3.mk 0 0 (1/1000) + Vec3.mk 0 0 1 * ((999:ℝ)/1000),
      Vec3.normalize ((Vec3.mk 0 0 (1/1000) + Vec3.mk 0 0 1 * ((999:ℝ)/1000)) -
        wBlocker.center),
      wBlocker.material) = _
  rw [hhit, hnorm]
  rfl

theorem wLight_dir_eval : Vec3.normalize (wLight.position - wOrig) = Vec3.mk 0 0 1 := by
  have hdiff : wLight.position - wOrig = Vec3.mk 0 0 4 := by
    ext <;> norm_num [wLight, wOrig]
  have hn : Vec3.norm (Vec3.mk 0 0 4) = 4 := by
    rw [Vec3.norm]
    exact sqrtEval (by norm_num) (by norm_num)
  rw [hdiff, Vec3.normalize, hn]
  ext <;> norm_num

theorem wLight_bias_eval :
    biasOrig wOrig (Vec3.mk 0 0 1) (Vec3.mk 0 0 1) = Vec3.mk 0 0 (1/1000) := by
  rw [biasOrig,
    if_neg (by norm_num [Vec3.dot] :
      ¬ Vec3.dot (Vec3.mk 0 0 1) (Vec3.mk 0 0 1) < 0)]
  ext <;> norm_num [wOrig]

theorem occluded_light_no_contribution_witness :
    (sceneIntersect wImgShadow
        (biasOrig wOrig (Vec3.mk 0 0 1) (Vec3.normalize (wLight.position - wOrig)))
        (Vec3.normalize (wLight.position - wOrig)) =
      some (Vec3.mk 0 0 1, Vec3.mk 0 0 (-1), defaultMaterial)) ∧
    Vec3.norm ((Vec3.mk 0 0 1 : Vec3) -
        biasOrig wOrig (Vec3.mk 0 0 1) (Vec3.normalize (wLight.position - wOrig))) <
      Vec3.norm (wLight.position - wOrig) ∧
    ([] ++ wLight :: []).foldl
        (lightStep wImgShadow wOrig (Vec3.mk 0 0 1) wDir defaultMaterial) (0, 0) =
      ([] ++ ([] : List Light)).foldl
        (lightStep wImgShadow wOrig (Vec3.mk 0 0 1) wDir defaultMaterial) (0, 0) := by
  have hhit : sceneIntersect wImgShadow
      (biasOrig wOrig (Vec3.mk 0 0 1) (Vec3.normalize (wLight.position - wOrig)))
      (Vec3.normalize (wLight.position - wOrig)) =
      some (Vec3.mk 0 0 1, Vec3.mk 0 0 (-1), defaultMaterial) := by
    rw [wLight_dir_eval, wLight_bias_eval]
    exact sceneIntersect_shadow_eval
  have hldist : Vec3.norm (wLight.position - wOrig) = 4 := by
    have hdiff : wLight.position - wOrig = Vec3.mk 0 0 4 := by
      ext <;> norm_num [wLight, wOrig]
    rw [hdiff, Vec3.norm]
    exact sqrtEval (by norm_num) (by norm_num)
  have hdist : Vec3.norm ((Vec3.mk 0 0 1 : Vec3) -
      biasOrig wOrig (Vec3.mk 0 0 1) (Vec3.normalize (wLight.position - wOrig))) <
      Vec3.norm (wLight.position - wOrig) := by
    rw [wLight_dir_eval, wLight_bias_eval, hldist]
    have hdiff : (Vec3.mk 0 0 1 : Vec3) - Vec3.mk 0 0 (1/1000) =
        Vec3.mk 0 0 (999/1000) := by
      ext <;> norm_num
    rw [hdiff, Vec3.norm,
      sqrtEval (by norm_num : (0:ℝ) * 0 + 0 * 0 + 999/1000 * (999/1000) =
        999/1000 * (999/1000)) (by norm_num)]
    norm_num
  exact ⟨hhit, hdist,
    occluded_light_no_contribution wImgShadow wOrig (Vec3.mk 0 0 1) wDir
      defaultMaterial [] [] wLight (0, 0)
      (Vec3.mk 0 0 1, Vec3.mk 0 0 (-1), defaultMaterial) hhit hdist⟩

/-! ## Termination of the recursion (claim C4) -/

/-- C4: cast_ray terminates with a constant, small recursion budget: the
depth measure never exceeds 6, and running the fuel-indexed unfolding with
any fuel at least the measure computes exactly cast_ray — each recursive
call strictly consumes the budget (active depths 0,1,2,3,4 and then the
exhausted marker). -/
theorem castRay_terminates_bounded :
    (∀ depth : Option ℕ, depthFuel depth ≤ 6) ∧
    (∀ (fuel : ℕ) (img : Image) (orig dir : Vec3) (depth : Option ℕ),
      depthFuel depth ≤ fuel →
      castRayFuel fuel img orig dir depth = castRay img orig dir depth) := by
  constructor
  · intro depth
    cases depth with
    | none => simp [depthFuel]
    | some d => simp only [depthFuel]; omega
  · intro fuel
    induction fuel with
    | zero =>
      intro img orig dir depth hle
      cases depth with
      | none => simp [castRayFuel, castRay]
      | some d =>
        exact absurd hle (by simp only [depthFuel]; omega)
    | succ fuel ih =>
      intro img orig dir depth hle
      cases depth with
      | none => simp [castRayFuel, castRay]
      | some d =>
        have hside : depthFuel (nextDepth (some d)) ≤ fuel := by
          simp only [depthFuel] at hle
          rw [nextDepth_some]
          by_cases h4 : d + 1 ≤ 4
          · simp only [h4, if_true, depthFuel]
            omega
          · simp only [h4, if_false, depthFuel]
            omega
        cases hs : sceneIntersect img orig dir with
        | none => simp [castRayFuel, castRay, hs]
        | some res =>
          simp only [castRayFuel, castRay, hs]
          rw [ih _ _ _ _ hside]

theorem castRay_terminates_bounded_witness :
    depthFuel (some 0) ≤ 6 ∧
    castRayFuel 6 wImgEmpty wOrig wDir (some 0) =
      castRay wImgEmpty wOrig wDir (some 0) :=
  ⟨by simp only [depthFuel]; omega,
    castRay_terminates_bounded.2 6 wImgEmpty wOrig wDir (some 0)
      (by simp only [depthFuel]; omega)⟩

/-! ## Empty scene (claim C7) -/

theorem sceneIntersect_of_no_spheres (img : Image) (h : img.spheres = [])
    (orig dir : Vec3) : sceneIntersect img orig dir = none := by
  simp only [sceneIntersect, h, List.foldl_nil]
  exact if_neg (not_lt.mpr FLT_MAX_big.le)

theorem flatten_replicate_map {α : Type} (w : ℕ) (a : α) :
    ∀ l : List ℕ, (l.map (fun _ => List.replicate w a)).flatten =
      List.replicate (l.length * w) a
  | [] => by simp
  | x :: l => by
    rw [List.map_cons, List.flatten_cons, flatten_replicate_map w a l,
      ← List.replicate_add]
    congr 1
    rw [List.length_cons]
    ring

/-- C7: when the scene contains no spheres, every camera ray's nearest-hit
query returns no hit, cast_ray at depth Some 0 returns the background color
unchanged, and the whole rendered framebuffer is height × width copies of
the background color (0.2, 0.7, 0.8). -/
theorem renderFrame_empty_background (img : Image) (h : img.spheres = []) :
    (∀ orig dir : Vec3, sceneIntersect img orig dir = none) ∧
    (∀ orig dir : Vec3, castRay img orig dir (some 0) = Vec3.mk 0.2 0.7 0.8) ∧
    renderFrame img =
      List.replicate (img.height * img.width) (Vec3.mk 0.2 0.7 0.8) := by
  have hscene := sceneIntersect_of_no_spheres img h
  have hcast : ∀ orig dir : Vec3,
      castRay img orig dir (some 0) = Vec3.mk 0.2 0.7 0.8 := by
    intro orig dir
    simp [castRay, hscene orig dir, backgroundColor]
  refine ⟨hscene, hcast, ?_⟩
  have hpix : ∀ i j : ℕ, renderPixel img i j = Vec3.mk 0.2 0.7 0.8 := by
    intro i j
    rw [renderPixel]
    exact hcast _ _
  have hrow : ∀ i : ℕ, (List.range img.width).map (fun j => renderPixel img i j) =
      List.replicate img.width (Vec3.mk 0.2 0.7 0.8) := by
    intro i
    rw [List.map_congr_left (fun j _ => hpix i j)]
    rw [show (fun (_ : ℕ) => Vec3.mk 0.2 0.7 0.8) =
      Function.const ℕ (Vec3.mk 0.2 0.7 0.8) from rfl]
    rw [List.map_const, List.length_range]
  rw [renderFrame, List.map_congr_left (fun i _ => hrow i),
    flatten_replicate_map, List.length_range]

theorem renderFrame_empty_background_witness :
    wImgEmpty.spheres = [] ∧
    renderFrame wImgEmpty =
      List.replicate (wImgEmpty.height * wImgEmpty.width) (Vec3.mk 0.2 0.7 0.8) :=
  ⟨rfl, (renderFrame_empty_background wImgEmpty rfl).2.2⟩

end TinyRay
